import Mathlib

/-!
Shallow embedding of the ctenex matching core (the DB-backed implementation under
`src/ctenex/domain/matching_engine/model.py` and `src/ctenex/domain/order_book/model.py`).

Modelling conventions:
* `Decimal` prices and quantities (`DECIMAL(precision=5, scale=2)`) are embedded
  as `ℤ` counts of hundredths (so `100.00` is `10000` and the `999.99` sentinel is
  `99999`), following spec §9: "Prices and quantities are scaled to a
  tick-size-derived integer representation".  The source only subtracts, takes
  `min`, and compares, all of which are exact on decimals and preserved by the
  scaling, so this embedding is faithful.
* The relational store (the `book.bids` / `book.asks` tables together with their
  `side` discriminator) is a `List Order`; the `id` column is a primary key, so an
  insert of a duplicate id fails (`EngineError.duplicateKey`).
* SQLAlchemy's `.scalars().one()` is embedded by pattern matching on the filtered
  row list: zero rows give `EngineError.noResultFound`, two or more rows give
  `EngineError.multipleResultsFound` (`NoResultFound` / `MultipleResultsFound`).
  The query's `ORDER BY price ASC, created_at ASC` clause is not modelled because
  `.one()` is insensitive to row order: it inspects only the number of rows.
* A raising `add_order` leaves the store unchanged in the source as well: the
  `while OPEN == status` loop body runs at most once (every iteration rewrites the
  aggressor's status to `FILLED` or `PARTIALLY_FILLED`), and inside that single
  iteration every raise (`TypeError` on a `None` price comparison, `NoResultFound`,
  `MultipleResultsFound`) happens before the first mutation.  The only later raise,
  a duplicate-key insert, needs a caller that reuses an order id.  The embedding
  therefore returns `Except`, with `Except.error` meaning "call raised, state kept".
* `datetime` columns (`placed_at`, `created_at`) are embedded as `Nat` tick counts.
  Note the source initialises the `created_at` column with `default=datetime.now(UTC)`
  evaluated once at import time, so the tie-break timestamp is a constant; this is
  irrelevant here because of the `.one()` point above.
-/

/-- `OrderSide` from `src/ctenex/domain/entities.py`. -/
inductive OrderSide
  | buy
  | sell
deriving DecidableEq

/-- `OrderType` from `src/ctenex/domain/entities.py`. -/
inductive OrderType
  | limit
  | market
deriving DecidableEq

/-- `OpenOrderStatus` and `ProcessedOrderStatus` from `src/ctenex/domain/entities.py`,
merged into one type (as the union `OrderStatus` is in the source).  `opn` stands for
`OPEN` (a Lean keyword). -/
inductive OrderStatus
  | opn
  | partiallyFilled
  | filled
  | cancelled
deriving DecidableEq

/-- The order schema `src/ctenex/domain/order_book/order/model.py` (also the shape of
the `book.bids` / `book.asks` rows of `src/ctenex/domain/entities.py`, with `side`
kept as a discriminator column so both tables live in one store). -/
structure Order where
  id : Nat
  contract_id : Nat
  side : OrderSide
  type : OrderType
  price : Option ℤ
  quantity : ℤ
  status : OrderStatus
  remaining_quantity : Option ℤ
  created_at : Nat
deriving DecidableEq

/-- The trade schema (`Trade` rows of `src/ctenex/domain/entities.py`). -/
structure Trade where
  contract_id : Nat
  buy_order_id : Nat
  sell_order_id : Nat
  price : ℤ
  quantity : ℤ
deriving DecidableEq

/-- The whole engine-visible state: the set of contracts the engine was started
with (`MatchingEngine.order_books` keys), the order rows, and the persisted trades
(the journal). -/
structure EngineState where
  contracts : List Nat
  orders : List Order
  trades : List Trade
deriving DecidableEq

/-- Errors the Python code can raise on the modelled paths. -/
inductive EngineError
  | unknownContract
  | noResultFound
  | multipleResultsFound
  | nonePriceCompared
  | missingPrice
  | missingPriceOnCancel
  | duplicateKey
deriving DecidableEq

deriving instance DecidableEq for Except

/-- The remaining quantity of a stored order.  In the source this column is
non-nullable for stored rows and is always set on the aggressor before it is read
(`add_order` initialises it), so the `getD 0` default is never exercised on
reachable values. -/
def rq (o : Order) : ℤ := o.remaining_quantity.getD 0

/-- `Order.status.in_([OpenOrderStatus.OPEN, OpenOrderStatus.PARTIALLY_FILLED])`
from the counterparty queries (`matching_engine/model.py:128-130` and `218-220`). -/
def isOpenStatus : OrderStatus → Bool
  | OrderStatus.opn => true
  | OrderStatus.partiallyFilled => true
  | OrderStatus.filled => false
  | OrderStatus.cancelled => false

/-- `Order.price <= bound` in SQL, where `bound = none` encodes the
`float("inf")` bound used for market aggressors and a NULL price compares false. -/
def priceLeBound (p : Option ℤ) (bound : Option ℤ) : Bool :=
  match p, bound with
  | some p, some b => decide (p ≤ b)
  | some _, none => true
  | none, _ => false

/-- The WHERE clause of the sell-counterparty query in `_match_buy_order`
(`matching_engine/model.py:126-137`). -/
def sellMatchPred (buy : Order) (o : Order) : Bool :=
  o.contract_id == buy.contract_id && o.side == OrderSide.sell &&
    isOpenStatus o.status &&
    priceLeBound o.price (if buy.type = OrderType.market then none else buy.price)

/-- The WHERE clause of the buy-counterparty query in `_match_sell_order`
(`matching_engine/model.py:216-227`).  Note that it keeps the same
`Order.price <= bound` direction as the buy side in the source. -/
def buyMatchPred (sell : Order) (o : Order) : Bool :=
  o.contract_id == sell.contract_id && o.side == OrderSide.buy &&
    isOpenStatus o.status &&
    priceLeBound o.price (if sell.type = OrderType.market then none else sell.price)

/-- Rows returned by the sell-counterparty query of `_match_buy_order`. -/
def eligibleSellOrders (orders : List Order) (buy : Order) : List Order :=
  orders.filter (sellMatchPred buy)

/-- Rows returned by the buy-counterparty query of `_match_sell_order`. -/
def eligibleBuyOrders (orders : List Order) (sell : Order) : List Order :=
  orders.filter (buyMatchPred sell)

/-- Modelled from the spec: `OrderBook.get_best_ask_price`, which is called by the
engine (`matching_engine/model.py:113`) but whose definition is not under `src/`.
Per §4.3 and the glossary, the best ask is the lowest price among resting
(open or partially filled) sell orders of the book's contract, or absent. -/
def get_best_ask_price (orders : List Order) (cid : Nat) : Option ℤ :=
  (orders.filter (fun o =>
      o.contract_id == cid && o.side == OrderSide.sell && isOpenStatus o.status)).foldr
    (fun o acc =>
      match o.price, acc with
      | some p, some q => some (min p q)
      | some p, none => some p
      | none, acc => acc)
    none

/-- Modelled from the spec: `OrderBook.get_best_bid_price`
(`matching_engine/model.py:203`; definition not under `src/`).  Per §4.3 and the
glossary, the best bid is the highest price among resting buy orders, or absent. -/
def get_best_bid_price (orders : List Order) (cid : Nat) : Option ℤ :=
  (orders.filter (fun o =>
      o.contract_id == cid && o.side == OrderSide.buy && isOpenStatus o.status)).foldr
    (fun o acc =>
      match o.price, acc with
      | some p, some q => some (max p q)
      | some p, none => some p
      | none, acc => acc)
    none

/-- Modelled from the spec: `OrderBook.update_order`
(`matching_engine/model.py:169` and `:259`; definition not under `src/`).  Per §3
Lifecycles the engine mutates the stored order in place (decrement
`remaining_quantity`, update `status`), so the store row with the same id is
replaced. -/
def update_order (orders : List Order) (o : Order) : List Order :=
  orders.map (fun r => if r.id == o.id then o else r)

/-- The common quantity/status update applied to both sides of a fill
(`matching_engine/model.py:146-164` and `236-256`): decrement by the trade
quantity, then status `FILLED` when the remainder is zero, else
`PARTIALLY_FILLED`. -/
def fillResult (o : Order) (q : ℤ) : Order :=
  { o with
    remaining_quantity := some (rq o - q),
    status := if rq o - q = 0 then OrderStatus.filled else OrderStatus.partiallyFilled }

/-- The trade record built in `_match_buy_order` (`matching_engine/model.py:172-178`):
priced at `best_ask_price`. -/
def mkTradeBuy (buy nextSell : Order) (bestAsk : ℤ) (q : ℤ) : Trade :=
  { contract_id := buy.contract_id
    buy_order_id := buy.id
    sell_order_id := nextSell.id
    price := bestAsk
    quantity := q }

/-- The trade record built in `_match_sell_order` (`matching_engine/model.py:262-268`):
priced at `best_bid_price`. -/
def mkTradeSell (sell nextBuy : Order) (bestBid : ℤ) (q : ℤ) : Trade :=
  { contract_id := sell.contract_id
    buy_order_id := nextBuy.id
    sell_order_id := sell.id
    price := bestBid
    quantity := q }

/-- One iteration body of the `_match_buy_order` loop after the break checks:
run the counterparty query through `.one()`, compute the fill, update both
orders and the store, and build the trade. -/
def matchBuyStep (bestAsk : ℤ) (buy : Order) (orders : List Order) :
    Except EngineError (Order × List Order × Trade) :=
  match eligibleSellOrders orders buy with
  | [] => Except.error EngineError.noResultFound
  | [nextSell] =>
    let q := min (rq buy) (rq nextSell)
    Except.ok
      (fillResult buy q, update_order orders (fillResult nextSell q),
        mkTradeBuy buy nextSell bestAsk q)
  | _ :: _ :: _ => Except.error EngineError.multipleResultsFound

/-- One iteration body of the `_match_sell_order` loop after the break checks. -/
def matchSellStep (bestBid : ℤ) (sell : Order) (orders : List Order) :
    Except EngineError (Order × List Order × Trade) :=
  match eligibleBuyOrders orders sell with
  | [] => Except.error EngineError.noResultFound
  | [nextBuy] =>
    let q := min (rq sell) (rq nextBuy)
    Except.ok
      (fillResult sell q, update_order orders (fillResult nextBuy q),
        mkTradeSell sell nextBuy bestBid q)
  | _ :: _ :: _ => Except.error EngineError.multipleResultsFound

/-- The break/raise check `if buy_order.type == OrderType.LIMIT and best_ask_price >
buy_order.price: break` (`matching_engine/model.py:119`); comparing a `Decimal`
against a missing (`None`) price raises a `TypeError` in Python. -/
def limitBuyBreak (bestAsk : ℤ) (buy : Order) : Except EngineError Bool :=
  if buy.type = OrderType.limit then
    match buy.price with
    | none => Except.error EngineError.nonePriceCompared
    | some p => Except.ok (decide (bestAsk > p))
  else Except.ok false

/-- The break/raise check `if sell_order.type == OrderType.LIMIT and best_bid_price <
sell_order.price: break` (`matching_engine/model.py:209`). -/
def limitSellBreak (bestBid : ℤ) (sell : Order) : Except EngineError Bool :=
  if sell.type = OrderType.limit then
    match sell.price with
    | none => Except.error EngineError.nonePriceCompared
    | some p => Except.ok (decide (bestBid < p))
  else Except.ok false

/-- The `while OpenOrderStatus.OPEN == buy_order.status` loop of
`_match_buy_order` (`matching_engine/model.py:111-186`), embedded with fuel.
`matchBuyGo_fuel_stable` below shows any fuel of at least two gives the same
result, because every iteration rewrites the aggressor's status away from
`OPEN`, so the loop body runs at most once. -/
def matchBuyGo : Nat → Order → List Order → List Trade →
    Except EngineError (Order × List Order × List Trade)
  | 0, buy, orders, trades => Except.ok (buy, orders, trades)
  | Nat.succ fuel, buy, orders, trades =>
    if buy.status = OrderStatus.opn then
      match get_best_ask_price orders buy.contract_id with
      | none => Except.ok (buy, orders, trades)
      | some bestAsk =>
        match limitBuyBreak bestAsk buy with
        | Except.error e => Except.error e
        | Except.ok true => Except.ok (buy, orders, trades)
        | Except.ok false =>
          match matchBuyStep bestAsk buy orders with
          | Except.error e => Except.error e
          | Except.ok (buy', orders', t) => matchBuyGo fuel buy' orders' (trades ++ [t])
    else Except.ok (buy, orders, trades)

/-- The `while OpenOrderStatus.OPEN == sell_order.status` loop of
`_match_sell_order` (`matching_engine/model.py:201-272`). -/
def matchSellGo : Nat → Order → List Order → List Trade →
    Except EngineError (Order × List Order × List Trade)
  | 0, sell, orders, trades => Except.ok (sell, orders, trades)
  | Nat.succ fuel, sell, orders, trades =>
    if sell.status = OrderStatus.opn then
      match get_best_bid_price orders sell.contract_id with
      | none => Except.ok (sell, orders, trades)
      | some bestBid =>
        match limitSellBreak bestBid sell with
        | Except.error e => Except.error e
        | Except.ok true => Except.ok (sell, orders, trades)
        | Except.ok false =>
          match matchSellStep bestBid sell orders with
          | Except.error e => Except.error e
          | Except.ok (sell', orders', t) => matchSellGo fuel sell' orders' (trades ++ [t])
    else Except.ok (sell, orders, trades)

/-- `MatchingEngine._match_buy_order` (`matching_engine/model.py:106-194`). -/
def match_buy_order (buy : Order) (orders : List Order) :
    Except EngineError (Order × List Order × List Trade) :=
  matchBuyGo 2 buy orders []

/-- `MatchingEngine._match_sell_order` (`matching_engine/model.py:196-284`). -/
def match_sell_order (sell : Order) (orders : List Order) :
    Except EngineError (Order × List Order × List Trade) :=
  matchSellGo 2 sell orders []

/-- `if order.remaining_quantity is None: order.remaining_quantity = order.quantity`
(`matching_engine/model.py:50-51`). -/
def initRemaining (o : Order) : Order :=
  match o.remaining_quantity with
  | none => { o with remaining_quantity := some o.quantity }
  | some _ => o

/-- The sentinel resting price `OrderBook.add_order` assigns to market orders
(`order_book/model.py:31-35`): `Decimal("999.99")` (= `99999`
hundredths) for buys, `Decimal("0.00")` for sells. -/
def sentinelPrice (side : OrderSide) : ℤ :=
  if side = OrderSide.buy then (99999 : ℤ) else 0

/-- The row insert (`orders_writer.create` + commit, `order_book/model.py:39-42`);
the `id` column is a primary key (`entities.py:84-89`), so inserting a duplicate
id fails. -/
def insertEntity (orders : List Order) (o : Order) : Except EngineError (List Order) :=
  if orders.any (fun r => r.id == o.id) then Except.error EngineError.duplicateKey
  else Except.ok (orders ++ [o])

/-- `OrderBook.add_order` (`order_book/model.py:28-44`): market orders get the
sentinel price, a non-market order without a price raises
`ValueError("Order must have a price")`, then the row is inserted. -/
def book_add_order (orders : List Order) (o : Order) : Except EngineError (List Order) :=
  if o.type = OrderType.market then
    insertEntity orders { o with price := some (sentinelPrice o.side) }
  else if o.price = none then Except.error EngineError.missingPrice
  else insertEntity orders o

/-- `MatchingEngine.add_order` (`matching_engine/model.py:46-69`): initialise the
remaining quantity, run the match loop for the order's side (the loop's first
line looks the contract's book up, raising `KeyError` for an unknown contract),
rest the resulting order in the book whatever its status, then persist the
trades generated by this call. -/
def add_order (st : EngineState) (order : Order) :
    Except EngineError (EngineState × List Trade) :=
  let order := initRemaining order
  if st.contracts.contains order.contract_id then
    match
      (if order.side = OrderSide.buy then match_buy_order order st.orders
       else match_sell_order order st.orders) with
    | Except.error e => Except.error e
    | Except.ok (order', orders', newTrades) =>
      match book_add_order orders' order' with
      | Except.error e => Except.error e
      | Except.ok orders2 =>
        Except.ok
          ({ st with orders := orders2, trades := st.trades ++ newTrades }, newTrades)
  else Except.error EngineError.unknownContract

/-- `OrderBook.cancel_order` (`order_book/model.py:46-61`).  The lookup
`orders_reader.get(self.db, order_id)` is modelled from the spec (§4.3
`get_order(id)`: a point lookup by order id; the reader's definition is not
under `src/`): it finds the stored row with the given id whatever its status,
since rows are only ever inserted and updated, never deleted.  A found order
without a price raises; otherwise the status is set to `CANCELLED`, the row is
updated, and the order is returned.  `none` models the *NotFound* result. -/
def cancel_order (st : EngineState) (order_id : Nat) :
    Except EngineError (EngineState × Option Order) :=
  match st.orders.find? (fun r => r.id == order_id) with
  | none => Except.ok (st, none)
  | some o =>
    match o.price with
    | none => Except.error EngineError.missingPriceOnCancel
    | some _ =>
      let o' := { o with status := OrderStatus.cancelled }
      Except.ok ({ st with orders := update_order st.orders o' }, some o')

/-- `MatchingEngine.start` (`matching_engine/model.py:37-40`): one empty book per
contract code, no orders, no trades. -/
def engineStart (contracts : List Nat) : EngineState :=
  { contracts := contracts, orders := [], trades := [] }

/-- State after an `add_order` call: the new state on success, the unchanged
state when the call raises (see the module comment: every raising call in the
source leaves the store unchanged). -/
def applyAdd (st : EngineState) (o : Order) : EngineState :=
  match add_order st o with
  | Except.ok (st', _) => st'
  | Except.error _ => st

/-- State after a `cancel_order` call (unchanged when the call raises). -/
def applyCancel (st : EngineState) (order_id : Nat) : EngineState :=
  match cancel_order st order_id with
  | Except.ok (st', _) => st'
  | Except.error _ => st

/-- A client-visible engine operation. -/
inductive Cmd
  | add (o : Order)
  | cancel (order_id : Nat)

/-- Run one operation. -/
def applyCmd (st : EngineState) : Cmd → EngineState
  | Cmd.add o => applyAdd st o
  | Cmd.cancel i => applyCancel st i

/-- Run a sequence of operations. -/
def runCmds (st : EngineState) (cmds : List Cmd) : EngineState :=
  cmds.foldl applyCmd st

/-- An incoming order as built by the schema defaults
(`order_book/order/model.py`): status `OPEN`, `remaining_quantity` unset —
or with `remaining_quantity` already equal to `quantity`. -/
def freshOrder (o : Order) : Prop :=
  o.remaining_quantity = none ∨ o.remaining_quantity = some o.quantity

instance (o : Order) : Decidable (freshOrder o) := by
  unfold freshOrder
  infer_instance

/-- A limit-order literal (schema defaults: status `OPEN`, remaining unset). -/
def mkLimit (i cid : Nat) (side : OrderSide) (p q : ℤ) (t : Nat) : Order :=
  { id := i, contract_id := cid, side := side, type := OrderType.limit,
    price := some p, quantity := q, status := OrderStatus.opn,
    remaining_quantity := none, created_at := t }

/-- A market-order literal (schema defaults: no price, status `OPEN`,
remaining unset). -/
def mkMarket (i cid : Nat) (side : OrderSide) (q : ℤ) (t : Nat) : Order :=
  { id := i, contract_id := cid, side := side, type := OrderType.market,
    price := none, quantity := q, status := OrderStatus.opn,
    remaining_quantity := none, created_at := t }

/-! ### Basic facts about the embedded operations -/

@[simp] theorem initRemaining_id (o : Order) : (initRemaining o).id = o.id := by
  cases h : o.remaining_quantity <;> simp [initRemaining, h]

@[simp] theorem initRemaining_contract (o : Order) :
    (initRemaining o).contract_id = o.contract_id := by
  cases h : o.remaining_quantity <;> simp [initRemaining, h]

@[simp] theorem initRemaining_side (o : Order) : (initRemaining o).side = o.side := by
  cases h : o.remaining_quantity <;> simp [initRemaining, h]

@[simp] theorem initRemaining_type (o : Order) : (initRemaining o).type = o.type := by
  cases h : o.remaining_quantity <;> simp [initRemaining, h]

@[simp] theorem initRemaining_price (o : Order) : (initRemaining o).price = o.price := by
  cases h : o.remaining_quantity <;> simp [initRemaining, h]

@[simp] theorem initRemaining_quantity (o : Order) :
    (initRemaining o).quantity = o.quantity := by
  cases h : o.remaining_quantity <;> simp [initRemaining, h]

@[simp] theorem initRemaining_status (o : Order) : (initRemaining o).status = o.status := by
  cases h : o.remaining_quantity <;> simp [initRemaining, h]

theorem initRemaining_fresh (o : Order) (h : freshOrder o) :
    (initRemaining o).remaining_quantity = some o.quantity := by
  cases h with
  | inl h => simp [initRemaining, h]
  | inr h => simp [initRemaining, h]

@[simp] theorem fillResult_id (o : Order) (q : ℤ) : (fillResult o q).id = o.id := rfl

@[simp] theorem fillResult_contract (o : Order) (q : ℤ) :
    (fillResult o q).contract_id = o.contract_id := rfl

@[simp] theorem fillResult_side (o : Order) (q : ℤ) : (fillResult o q).side = o.side := rfl

@[simp] theorem fillResult_type (o : Order) (q : ℤ) : (fillResult o q).type = o.type := rfl

@[simp] theorem fillResult_price (o : Order) (q : ℤ) : (fillResult o q).price = o.price := rfl

@[simp] theorem fillResult_quantity (o : Order) (q : ℤ) :
    (fillResult o q).quantity = o.quantity := rfl

@[simp] theorem rq_fillResult (o : Order) (q : ℤ) : rq (fillResult o q) = rq o - q := rfl

theorem fillResult_status_ne_opn (o : Order) (q : ℤ) :
    (fillResult o q).status ≠ OrderStatus.opn := by
  show (if rq o - q = 0 then OrderStatus.filled else OrderStatus.partiallyFilled) ≠ _
  split <;> exact fun h => OrderStatus.noConfusion h

theorem fillResult_status_ne_cancelled (o : Order) (q : ℤ) :
    (fillResult o q).status ≠ OrderStatus.cancelled := by
  show (if rq o - q = 0 then OrderStatus.filled else OrderStatus.partiallyFilled) ≠ _
  split <;> exact fun h => OrderStatus.noConfusion h

theorem matchBuyGo_of_ne_opn (fuel : Nat) (o : Order) (orders : List Order)
    (trades : List Trade) (h : o.status ≠ OrderStatus.opn) :
    matchBuyGo fuel o orders trades = Except.ok (o, orders, trades) := by
  cases fuel with
  | zero => rfl
  | succ n => unfold matchBuyGo; rw [if_neg h]

theorem matchSellGo_of_ne_opn (fuel : Nat) (o : Order) (orders : List Order)
    (trades : List Trade) (h : o.status ≠ OrderStatus.opn) :
    matchSellGo fuel o orders trades = Except.ok (o, orders, trades) := by
  cases fuel with
  | zero => rfl
  | succ n => unfold matchSellGo; rw [if_neg h]

theorem matchBuyStep_cases (a : ℤ) (o : Order) (os : List Order) :
    (matchBuyStep a o os = Except.error EngineError.noResultFound ∧
      eligibleSellOrders os o = []) ∨
    matchBuyStep a o os = Except.error EngineError.multipleResultsFound ∨
    ∃ r, eligibleSellOrders os o = [r] ∧
      matchBuyStep a o os =
        Except.ok (fillResult o (min (rq o) (rq r)),
          update_order os (fillResult r (min (rq o) (rq r))),
          mkTradeBuy o r a (min (rq o) (rq r))) := by
  unfold matchBuyStep
  cases hel : eligibleSellOrders os o with
  | nil => exact Or.inl ⟨rfl, rfl⟩
  | cons x tl =>
    cases tl with
    | nil => exact Or.inr (Or.inr ⟨x, rfl, rfl⟩)
    | cons y tl2 => exact Or.inr (Or.inl rfl)

theorem matchSellStep_cases (a : ℤ) (o : Order) (os : List Order) :
    (matchSellStep a o os = Except.error EngineError.noResultFound ∧
      eligibleBuyOrders os o = []) ∨
    matchSellStep a o os = Except.error EngineError.multipleResultsFound ∨
    ∃ r, eligibleBuyOrders os o = [r] ∧
      matchSellStep a o os =
        Except.ok (fillResult o (min (rq o) (rq r)),
          update_order os (fillResult r (min (rq o) (rq r))),
          mkTradeSell o r a (min (rq o) (rq r))) := by
  unfold matchSellStep
  cases hel : eligibleBuyOrders os o with
  | nil => exact Or.inl ⟨rfl, rfl⟩
  | cons x tl =>
    cases tl with
    | nil => exact Or.inr (Or.inr ⟨x, rfl, rfl⟩)
    | cons y tl2 => exact Or.inr (Or.inl rfl)

theorem match_buy_order_cases (buy : Order) (orders : List Order) :
    (∃ e, match_buy_order buy orders = Except.error e) ∨
    match_buy_order buy orders = Except.ok (buy, orders, []) ∨
    ∃ r a, get_best_ask_price orders buy.contract_id = some a ∧
      eligibleSellOrders orders buy = [r] ∧
      match_buy_order buy orders =
        Except.ok (fillResult buy (min (rq buy) (rq r)),
          update_order orders (fillResult r (min (rq buy) (rq r))),
          [mkTradeBuy buy r a (min (rq buy) (rq r))]) := by
  by_cases hstat : buy.status = OrderStatus.opn
  case neg =>
    exact Or.inr (Or.inl (matchBuyGo_of_ne_opn 2 buy orders [] hstat))
  unfold match_buy_order matchBuyGo
  rw [if_pos hstat]
  split
  next hask => exact Or.inr (Or.inl rfl)
  next a hask =>
    split
    next e hbrk => exact Or.inl ⟨e, rfl⟩
    next hbrk => exact Or.inr (Or.inl rfl)
    next hbrk =>
      rcases matchBuyStep_cases a buy orders with ⟨hstep, _⟩ | hstep | ⟨r, hel, hstep⟩
      · rw [hstep]; exact Or.inl ⟨EngineError.noResultFound, rfl⟩
      · rw [hstep]; exact Or.inl ⟨EngineError.multipleResultsFound, rfl⟩
      · rw [hstep]
        dsimp only
        rw [matchBuyGo_of_ne_opn 1 _ _ _ (fillResult_status_ne_opn buy (min (rq buy) (rq r)))]
        exact Or.inr (Or.inr ⟨r, a, hask, hel, rfl⟩)

theorem match_sell_order_cases (sell : Order) (orders : List Order) :
    (∃ e, match_sell_order sell orders = Except.error e) ∨
    match_sell_order sell orders = Except.ok (sell, orders, []) ∨
    ∃ r a, get_best_bid_price orders sell.contract_id = some a ∧
      eligibleBuyOrders orders sell = [r] ∧
      match_sell_order sell orders =
        Except.ok (fillResult sell (min (rq sell) (rq r)),
          update_order orders (fillResult r (min (rq sell) (rq r))),
          [mkTradeSell sell r a (min (rq sell) (rq r))]) := by
  by_cases hstat : sell.status = OrderStatus.opn
  case neg =>
    exact Or.inr (Or.inl (matchSellGo_of_ne_opn 2 sell orders [] hstat))
  unfold match_sell_order matchSellGo
  rw [if_pos hstat]
  split
  next hask => exact Or.inr (Or.inl rfl)
  next a hask =>
    split
    next e hbrk => exact Or.inl ⟨e, rfl⟩
    next hbrk => exact Or.inr (Or.inl rfl)
    next hbrk =>
      rcases matchSellStep_cases a sell orders with ⟨hstep, _⟩ | hstep | ⟨r, hel, hstep⟩
      · rw [hstep]; exact Or.inl ⟨EngineError.noResultFound, rfl⟩
      · rw [hstep]; exact Or.inl ⟨EngineError.multipleResultsFound, rfl⟩
      · rw [hstep]
        dsimp only
        rw [matchSellGo_of_ne_opn 1 _ _ _ (fillResult_status_ne_opn sell (min (rq sell) (rq r)))]
        exact Or.inr (Or.inr ⟨r, a, hask, hel, rfl⟩)

theorem sellMatchPred_facts (buy o : Order) (h : sellMatchPred buy o = true) :
    o.contract_id = buy.contract_id ∧ o.side = OrderSide.sell ∧
      isOpenStatus o.status = true := by
  simp only [sellMatchPred, Bool.and_eq_true, beq_iff_eq] at h
  exact ⟨h.1.1.1, h.1.1.2, h.1.2⟩

theorem buyMatchPred_facts (sell o : Order) (h : buyMatchPred sell o = true) :
    o.contract_id = sell.contract_id ∧ o.side = OrderSide.buy ∧
      isOpenStatus o.status = true := by
  simp only [buyMatchPred, Bool.and_eq_true, beq_iff_eq] at h
  exact ⟨h.1.1.1, h.1.1.2, h.1.2⟩

theorem eligibleSell_singleton (orders : List Order) (buy r : Order)
    (h : eligibleSellOrders orders buy = [r]) :
    r ∈ orders ∧ sellMatchPred buy r = true := by
  have hr : r ∈ eligibleSellOrders orders buy := by
    rw [h]; exact List.mem_singleton_self r
  unfold eligibleSellOrders at hr
  exact List.mem_filter.mp hr

theorem eligibleBuy_singleton (orders : List Order) (sell r : Order)
    (h : eligibleBuyOrders orders sell = [r]) :
    r ∈ orders ∧ buyMatchPred sell r = true := by
  have hr : r ∈ eligibleBuyOrders orders sell := by
    rw [h]; exact List.mem_singleton_self r
  unfold eligibleBuyOrders at hr
  exact List.mem_filter.mp hr

theorem update_order_map_id (os : List Order) (o : Order) :
    (update_order os o).map Order.id = os.map Order.id := by
  unfold update_order
  induction os with
  | nil => rfl
  | cons x tl ih =>
    simp only [List.map_cons] at ih ⊢
    rw [ih]
    congr 1
    split
    next h => exact (beq_iff_eq.mp h).symm
    next h => rfl

theorem update_order_not_mem (os : List Order) (o : Order)
    (h : o.id ∉ os.map Order.id) : update_order os o = os := by
  unfold update_order
  induction os with
  | nil => rfl
  | cons x tl ih =>
    simp only [List.map_cons, List.mem_cons] at h
    push_neg at h
    simp only [List.map_cons]
    have hcond : ¬((x.id == o.id) = true) := by
      intro hh
      exact h.1 (beq_iff_eq.mp hh).symm
    rw [if_neg hcond, ih h.2]

/-! ### Conservation bookkeeping -/

@[simp] theorem mkTradeBuy_contract (buy r : Order) (a q : ℤ) :
    (mkTradeBuy buy r a q).contract_id = buy.contract_id := rfl

@[simp] theorem mkTradeBuy_quantity (buy r : Order) (a q : ℤ) :
    (mkTradeBuy buy r a q).quantity = q := rfl

@[simp] theorem mkTradeSell_contract (sell r : Order) (a q : ℤ) :
    (mkTradeSell sell r a q).contract_id = sell.contract_id := rfl

@[simp] theorem mkTradeSell_quantity (sell r : Order) (a q : ℤ) :
    (mkTradeSell sell r a q).quantity = q := rfl

theorem rq_initRemaining_fresh (o : Order) (h : freshOrder o) :
    rq (initRemaining o) = o.quantity := by
  unfold rq
  rw [initRemaining_fresh o h]
  rfl

/-- The filled quantity an order row contributes for contract `c`. -/
def contribOrder (c : Nat) (o : Order) : ℤ :=
  if o.contract_id = c then o.quantity - rq o else 0

/-- The quantity a trade contributes for contract `c`. -/
def contribTrade (c : Nat) (t : Trade) : ℤ :=
  if t.contract_id = c then t.quantity else 0

/-- `sum(filled_quantity over all orders)` of spec §8.3, restricted to contract `c`. -/
def filledSum (orders : List Order) (c : Nat) : ℤ :=
  (orders.map (contribOrder c)).sum

/-- `sum(trade.quantity)` of spec §8.3, restricted to contract `c`. -/
def tradeSum (trades : List Trade) (c : Nat) : ℤ :=
  (trades.map (contribTrade c)).sum

theorem filledSum_append (l1 l2 : List Order) (c : Nat) :
    filledSum (l1 ++ l2) c = filledSum l1 c + filledSum l2 c := by
  unfold filledSum
  rw [List.map_append, List.sum_append]

theorem tradeSum_append (l1 l2 : List Trade) (c : Nat) :
    tradeSum (l1 ++ l2) c = tradeSum l1 c + tradeSum l2 c := by
  unfold tradeSum
  rw [List.map_append, List.sum_append]

theorem filledSum_update_order (os : List Order) (r r' : Order) (c : Nat)
    (hnd : (os.map Order.id).Nodup) (hmem : r ∈ os) (hid : r'.id = r.id) :
    filledSum (update_order os r') c =
      filledSum os c - contribOrder c r + contribOrder c r' := by
  induction os with
  | nil => cases hmem
  | cons x tl ih =>
    rw [List.map_cons, List.nodup_cons] at hnd
    rcases List.mem_cons.mp hmem with heq | hmem'
    · subst heq
      unfold update_order
      simp only [List.map_cons]
      rw [if_pos (beq_iff_eq.mpr hid.symm)]
      have htl : List.map (fun x => if x.id == r'.id then r' else x) tl = tl := by
        have h := update_order_not_mem tl r' (by rw [hid]; exact hnd.1)
        unfold update_order at h
        exact h
      rw [htl]
      unfold filledSum
      simp only [List.map_cons, List.sum_cons]
      ring
    · have hx : ¬(x.id == r'.id) = true := by
        intro hh
        have hxe : x.id = r.id := by rw [beq_iff_eq.mp hh, hid]
        exact hnd.1 (by rw [hxe]; exact List.mem_map_of_mem _ hmem')
      have ihh := ih hnd.2 hmem'
      unfold update_order at ihh ⊢
      simp only [List.map_cons]
      rw [if_neg hx]
      unfold filledSum at ihh ⊢
      simp only [List.map_cons, List.sum_cons]
      rw [ihh]
      ring

theorem nodup_append_id (os : List Order) (row : Order)
    (h : (os.map Order.id).Nodup) (ha : row.id ∉ os.map Order.id) :
    ((os ++ [row]).map Order.id).Nodup := by
  rw [List.map_append]
  refine List.Nodup.append h (List.nodup_singleton _) ?_
  intro x hx hx'
  rw [List.map_singleton, List.mem_singleton] at hx'
  subst hx'
  exact ha hx

theorem not_mem_id_of_any_false (os : List Order) (i : Nat)
    (h : os.any (fun r => r.id == i) = false) : i ∉ os.map Order.id := by
  intro hmem
  rw [List.mem_map] at hmem
  obtain ⟨r, hr, hid⟩ := hmem
  have htrue : os.any (fun r => r.id == i) = true :=
    List.any_eq_true.mpr ⟨r, hr, by rw [hid]; exact beq_self_eq_true i⟩
  rw [h] at htrue
  exact Bool.noConfusion htrue

theorem insertEntity_ok (os : List Order) (o : Order) (os2 : List Order)
    (h : insertEntity os o = Except.ok os2) :
    os2 = os ++ [o] ∧ o.id ∉ os.map Order.id := by
  unfold insertEntity at h
  split at h
  next => exact Except.noConfusion h
  next hfalse =>
    injection h with h'
    exact ⟨h'.symm, not_mem_id_of_any_false os o.id (Bool.eq_false_iff.mpr hfalse)⟩

theorem book_add_order_ok (os : List Order) (o : Order) (os2 : List Order)
    (h : book_add_order os o = Except.ok os2) :
    ∃ row : Order, os2 = os ++ [row] ∧ row.id = o.id ∧
      row.contract_id = o.contract_id ∧ row.quantity = o.quantity ∧
      row.remaining_quantity = o.remaining_quantity ∧ row.status = o.status ∧
      row.price =
        (if o.type = OrderType.market then some (sentinelPrice o.side) else o.price) ∧
      o.id ∉ os.map Order.id := by
  unfold book_add_order at h
  split at h
  next hm =>
    obtain ⟨h1, h2⟩ := insertEntity_ok _ _ _ h
    exact ⟨_, h1, rfl, rfl, rfl, rfl, rfl, by rw [if_pos hm], h2⟩
  next hm =>
    split at h
    next hp => exact Except.noConfusion h
    next hp =>
      obtain ⟨h1, h2⟩ := insertEntity_ok _ _ _ h
      exact ⟨o, h1, rfl, rfl, rfl, rfl, rfl, by rw [if_neg hm], h2⟩

/-- The inductive invariant: store ids are unique (the primary key) and the
filled-quantity conservation equation of spec §8.3 holds for every contract. -/
def goodState (st : EngineState) : Prop :=
  (st.orders.map Order.id).Nodup ∧
    ∀ c, filledSum st.orders c = 2 * tradeSum st.trades c

theorem goodState_engineStart (contracts : List Nat) :
    goodState (engineStart contracts) := by
  constructor
  · exact List.nodup_nil
  · intro c
    simp [filledSum, tradeSum, engineStart]

theorem fill_conservation (os : List Order) (ts : List Trade) (c : Nat)
    (r row : Order) (t : Trade) (q : ℤ)
    (hnd : (os.map Order.id).Nodup) (hmem : r ∈ os)
    (hcons : filledSum os c = 2 * tradeSum ts c)
    (hrowfill : row.quantity - rq row = q)
    (hrowc : row.contract_id = t.contract_id)
    (hrc : r.contract_id = t.contract_id)
    (htq : t.quantity = q) :
    filledSum (update_order os (fillResult r q) ++ [row]) c =
      2 * tradeSum (ts ++ [t]) c := by
  rw [filledSum_append, filledSum_update_order os r (fillResult r q) c hnd hmem rfl,
    tradeSum_append, hcons]
  have h1 : filledSum [row] c = contribOrder c row := by
    unfold filledSum
    simp
  have h2 : tradeSum [t] c = contribTrade c t := by
    unfold tradeSum
    simp
  rw [h1, h2]
  unfold contribOrder contribTrade
  rw [fillResult_contract, rq_fillResult, fillResult_quantity, hrowc, hrc, htq]
  by_cases hcc : t.contract_id = c
  · rw [if_pos hcc, if_pos hcc, if_pos hcc, if_pos hcc, hrowfill]
    ring
  · rw [if_neg hcc, if_neg hcc, if_neg hcc, if_neg hcc]
    ring

theorem rq_eq (o : Order) (x : ℤ) (h : o.remaining_quantity = some x) : rq o = x := by
  unfold rq
  rw [h]
  rfl

theorem add_order_eq (st : EngineState) (o : Order) :
    add_order st o =
      if st.contracts.contains (initRemaining o).contract_id then
        match
          (if (initRemaining o).side = OrderSide.buy
           then match_buy_order (initRemaining o) st.orders
           else match_sell_order (initRemaining o) st.orders) with
        | Except.error e => Except.error e
        | Except.ok (order', orders', newTrades) =>
          match book_add_order orders' order' with
          | Except.error e => Except.error e
          | Except.ok orders2 =>
            Except.ok
              ({ st with orders := orders2, trades := st.trades ++ newTrades },
                newTrades)
      else Except.error EngineError.unknownContract := rfl

theorem goodState_add_order (st : EngineState) (o : Order) (st' : EngineState)
    (ts : List Trade) (hg : goodState st) (hf : freshOrder o)
    (hadd : add_order st o = Except.ok (st', ts)) : goodState st' := by
  rw [add_order_eq] at hadd
  by_cases hc : st.contracts.contains (initRemaining o).contract_id = true
  case neg =>
    rw [if_neg hc] at hadd
    exact Except.noConfusion hadd
  rw [if_pos hc] at hadd
  by_cases hside : (initRemaining o).side = OrderSide.buy
  · rw [if_pos hside] at hadd
    rcases match_buy_order_cases (initRemaining o) st.orders with
      ⟨e, hm⟩ | hm | ⟨r, a, hask, hel, hm⟩
    · rw [hm] at hadd
      exact Except.noConfusion hadd
    · rw [hm] at hadd
      dsimp only at hadd
      cases hb : book_add_order st.orders (initRemaining o) with
      | error e =>
        rw [hb] at hadd
        exact Except.noConfusion hadd
      | ok os2 =>
        rw [hb] at hadd
        dsimp only at hadd
        injection hadd with h1
        rw [Prod.mk.injEq] at h1
        obtain ⟨hst, hts⟩ := h1
        rcases book_add_order_ok _ _ _ hb with
          ⟨row, hrow, hrid, hrc2, hq2, hrq2, hrs2, hrp2, hnotmem⟩
        rw [← hst]
        subst hrow
        constructor
        · exact nodup_append_id st.orders row hg.1 (by rw [hrid]; exact hnotmem)
        · intro c
          rw [List.append_nil, filledSum_append]
          have h0 : row.quantity - rq row = 0 := by
            unfold rq
            rw [hrq2, initRemaining_fresh o hf, Option.getD_some, hq2,
              initRemaining_quantity]
            ring
          have hcontrib : filledSum [row] c = 0 := by
            unfold filledSum
            simp only [List.map_cons, List.map_nil, List.sum_cons, List.sum_nil]
            unfold contribOrder
            rw [h0]
            simp
          rw [hcontrib, add_zero]
          exact hg.2 c
    · rw [hm] at hadd
      dsimp only at hadd
      cases hb : book_add_order
          (update_order st.orders (fillResult r (min (rq (initRemaining o)) (rq r))))
          (fillResult (initRemaining o) (min (rq (initRemaining o)) (rq r))) with
      | error e =>
        rw [hb] at hadd
        exact Except.noConfusion hadd
      | ok os2 =>
        rw [hb] at hadd
        dsimp only at hadd
        injection hadd with h1
        rw [Prod.mk.injEq] at h1
        obtain ⟨hst, hts⟩ := h1
        rcases book_add_order_ok _ _ _ hb with
          ⟨row, hrow, hrid, hrc2, hq2, hrq2, hrs2, hrp2, hnotmem⟩
        rw [← hst]
        subst hrow
        obtain ⟨hmem, hpred⟩ := eligibleSell_singleton st.orders (initRemaining o) r hel
        obtain ⟨hrcon, hrside, hropen⟩ := sellMatchPred_facts (initRemaining o) r hpred
        constructor
        · rw [update_order_map_id] at hnotmem
          refine nodup_append_id _ row ?_ ?_
          · rw [update_order_map_id]
            exact hg.1
          · rw [update_order_map_id, hrid]
            exact hnotmem
        · intro c
          refine fill_conservation st.orders st.trades c r row
            (mkTradeBuy (initRemaining o) r a (min (rq (initRemaining o)) (rq r)))
            (min (rq (initRemaining o)) (rq r)) hg.1 hmem (hg.2 c) ?_ ?_ ?_ rfl
          · have hx : rq row =
                rq (initRemaining o) - min (rq (initRemaining o)) (rq r) :=
              rq_eq row _ hrq2
            rw [hx, hq2, fillResult_quantity, initRemaining_quantity,
              rq_initRemaining_fresh o hf]
            ring
          · rw [hrc2, fillResult_contract, mkTradeBuy_contract]
          · rw [hrcon, mkTradeBuy_contract]
  · rw [if_neg hside] at hadd
    rcases match_sell_order_cases (initRemaining o) st.orders with
      ⟨e, hm⟩ | hm | ⟨r, a, hask, hel, hm⟩
    · rw [hm] at hadd
      exact Except.noConfusion hadd
    · rw [hm] at hadd
      dsimp only at hadd
      cases hb : book_add_order st.orders (initRemaining o) with
      | error e =>
        rw [hb] at hadd
        exact Except.noConfusion hadd
      | ok os2 =>
        rw [hb] at hadd
        dsimp only at hadd
        injection hadd with h1
        rw [Prod.mk.injEq] at h1
        obtain ⟨hst, hts⟩ := h1
        rcases book_add_order_ok _ _ _ hb with
          ⟨row, hrow, hrid, hrc2, hq2, hrq2, hrs2, hrp2, hnotmem⟩
        rw [← hst]
        subst hrow
        constructor
        · exact nodup_append_id st.orders row hg.1 (by rw [hrid]; exact hnotmem)
        · intro c
          rw [List.append_nil, filledSum_append]
          have h0 : row.quantity - rq row = 0 := by
            unfold rq
            rw [hrq2, initRemaining_fresh o hf, Option.getD_some, hq2,
              initRemaining_quantity]
            ring
          have hcontrib : filledSum [row] c = 0 := by
            unfold filledSum
            simp only [List.map_cons, List.map_nil, List.sum_cons, List.sum_nil]
            unfold contribOrder
            rw [h0]
            simp
          rw [hcontrib, add_zero]
          exact hg.2 c
    · rw [hm] at hadd
      dsimp only at hadd
      cases hb : book_add_order
          (update_order st.orders (fillResult r (min (rq (initRemaining o)) (rq r))))
          (fillResult (initRemaining o) (min (rq (initRemaining o)) (rq r))) with
      | error e =>
        rw [hb] at hadd
        exact Except.noConfusion hadd
      | ok os2 =>
        rw [hb] at hadd
        dsimp only at hadd
        injection hadd with h1
        rw [Prod.mk.injEq] at h1
        obtain ⟨hst, hts⟩ := h1
        rcases book_add_order_ok _ _ _ hb with
          ⟨row, hrow, hrid, hrc2, hq2, hrq2, hrs2, hrp2, hnotmem⟩
        rw [← hst]
        subst hrow
        obtain ⟨hmem, hpred⟩ := eligibleBuy_singleton st.orders (initRemaining o) r hel
        obtain ⟨hrcon, hrside, hropen⟩ := buyMatchPred_facts (initRemaining o) r hpred
        constructor
        · rw [update_order_map_id] at hnotmem
          refine nodup_append_id _ row ?_ ?_
          · rw [update_order_map_id]
            exact hg.1
          · rw [update_order_map_id, hrid]
            exact hnotmem
        · intro c
          refine fill_conservation st.orders st.trades c r row
            (mkTradeSell (initRemaining o) r a (min (rq (initRemaining o)) (rq r)))
            (min (rq (initRemaining o)) (rq r)) hg.1 hmem (hg.2 c) ?_ ?_ ?_ rfl
          · have hx : rq row =
                rq (initRemaining o) - min (rq (initRemaining o)) (rq r) :=
              rq_eq row _ hrq2
            rw [hx, hq2, fillResult_quantity, initRemaining_quantity,
              rq_initRemaining_fresh o hf]
            ring
          · rw [hrc2, fillResult_contract, mkTradeSell_contract]
          · rw [hrcon, mkTradeSell_contract]

theorem goodState_applyAdd (st : EngineState) (o : Order)
    (hg : goodState st) (hf : freshOrder o) : goodState (applyAdd st o) := by
  unfold applyAdd
  cases hadd : add_order st o with
  | error e => exact hg
  | ok res =>
    exact goodState_add_order st o res.1 res.2 hg hf (by rw [hadd])

theorem goodState_cancel_order (st : EngineState) (i : Nat) (st' : EngineState)
    (ro : Option Order) (hg : goodState st)
    (hc : cancel_order st i = Except.ok (st', ro)) : goodState st' := by
  unfold cancel_order at hc
  cases hfind : st.orders.find? (fun r => r.id == i) with
  | none =>
    rw [hfind] at hc
    dsimp only at hc
    injection hc with h1
    rw [Prod.mk.injEq] at h1
    rw [← h1.1]
    exact hg
  | some o =>
    rw [hfind] at hc
    dsimp only at hc
    cases hp : o.price with
    | none =>
      rw [hp] at hc
      exact Except.noConfusion hc
    | some p =>
      rw [hp] at hc
      dsimp only at hc
      injection hc with h1
      rw [Prod.mk.injEq] at h1
      rw [← hp] at h1
      rw [← h1.1]
      have hmem : o ∈ st.orders := List.mem_of_find?_eq_some hfind
      constructor
      · rw [update_order_map_id]
        exact hg.1
      · intro c
        rw [filledSum_update_order st.orders o
          { o with status := OrderStatus.cancelled } c hg.1 hmem rfl]
        have hsame : contribOrder c { o with status := OrderStatus.cancelled } =
            contribOrder c o := rfl
        rw [hsame, sub_add_cancel]
        exact hg.2 c

theorem goodState_applyCancel (st : EngineState) (i : Nat)
    (hg : goodState st) : goodState (applyCancel st i) := by
  unfold applyCancel
  cases hc : cancel_order st i with
  | error e => exact hg
  | ok res =>
    exact goodState_cancel_order st i res.1 res.2 hg (by rw [hc])

theorem goodState_runCmds (st : EngineState) (cmds : List Cmd)
    (hg : goodState st) (hf : ∀ o, Cmd.add o ∈ cmds → freshOrder o) :
    goodState (runCmds st cmds) := by
  induction cmds generalizing st with
  | nil => exact hg
  | cons cmd tl ih =>
    unfold runCmds
    rw [List.foldl_cons]
    refine ih (applyCmd st cmd) ?_ ?_
    · cases cmd with
      | add o => exact goodState_applyAdd st o hg (hf o (List.mem_cons_self _ _))
      | cancel i => exact goodState_applyCancel st i hg
    · intro o ho
      exact hf o (List.mem_cons_of_mem _ ho)

/-- Any positive fuel makes `matchBuyGo` compute the same result: every loop
iteration rewrites the aggressor's status away from `OPEN`, so the source's
`while OPEN == status` loop runs its body at most once and the fuel-2 embedding
in `match_buy_order` is exact. -/
theorem matchBuyGo_fuel_stable (n m : Nat) (o : Order) (orders : List Order)
    (trades : List Trade) :
    matchBuyGo (n + 1) o orders trades = matchBuyGo (m + 1) o orders trades := by
  by_cases h : o.status = OrderStatus.opn
  case neg => rw [matchBuyGo_of_ne_opn _ _ _ _ h, matchBuyGo_of_ne_opn _ _ _ _ h]
  unfold matchBuyGo
  rw [if_pos h, if_pos h]
  split
  next => rfl
  next a hask =>
    split
    next e hbrk => rfl
    next hbrk => rfl
    next hbrk =>
      rcases matchBuyStep_cases a o orders with ⟨hstep, _⟩ | hstep | ⟨r, hel, hstep⟩
      · rw [hstep]
      · rw [hstep]
      · rw [hstep]
        dsimp only
        rw [matchBuyGo_of_ne_opn n _ _ _ (fillResult_status_ne_opn o (min (rq o) (rq r))),
          matchBuyGo_of_ne_opn m _ _ _ (fillResult_status_ne_opn o (min (rq o) (rq r)))]

/-- Fuel irrelevance for the sell loop, as for `matchBuyGo_fuel_stable`. -/
theorem matchSellGo_fuel_stable (n m : Nat) (o : Order) (orders : List Order)
    (trades : List Trade) :
    matchSellGo (n + 1) o orders trades = matchSellGo (m + 1) o orders trades := by
  by_cases h : o.status = OrderStatus.opn
  case neg => rw [matchSellGo_of_ne_opn _ _ _ _ h, matchSellGo_of_ne_opn _ _ _ _ h]
  unfold matchSellGo
  rw [if_pos h, if_pos h]
  split
  next => rfl
  next a hask =>
    split
    next e hbrk => rfl
    next hbrk => rfl
    next hbrk =>
      rcases matchSellStep_cases a o orders with ⟨hstep, _⟩ | hstep | ⟨r, hel, hstep⟩
      · rw [hstep]
      · rw [hstep]
      · rw [hstep]
        dsimp only
        rw [matchSellGo_of_ne_opn n _ _ _ (fillResult_status_ne_opn o (min (rq o) (rq r))),
          matchSellGo_of_ne_opn m _ _ _ (fillResult_status_ne_opn o (min (rq o) (rq r)))]

/-- The best opposing price the match loop consults for an aggressor
(best ask for a buy, best bid for a sell). -/
def oppBest (st : EngineState) (o : Order) : Option ℤ :=
  if o.side = OrderSide.buy then get_best_ask_price st.orders o.contract_id
  else get_best_bid_price st.orders o.contract_id

/-- The rows the counterparty query of the match loop returns for an aggressor. -/
def counterpartyRows (st : EngineState) (o : Order) : List Order :=
  if o.side = OrderSide.buy then eligibleSellOrders st.orders o
  else eligibleBuyOrders st.orders o

theorem eligibleSell_initRemaining (os : List Order) (o : Order) :
    eligibleSellOrders os (initRemaining o) = eligibleSellOrders os o := by
  unfold eligibleSellOrders sellMatchPred
  cases h : o.remaining_quantity <;> simp [initRemaining, h]

theorem eligibleBuy_initRemaining (os : List Order) (o : Order) :
    eligibleBuyOrders os (initRemaining o) = eligibleBuyOrders os o := by
  unfold eligibleBuyOrders buyMatchPred
  cases h : o.remaining_quantity <;> simp [initRemaining, h]

/-! ### Claim theorems -/

/-- C1: the claim's walk-the-book scenario evaluated on the code.  Resting sell
limits 5.00@100.00 (id 1, inserted first) and 5.00@101.00 (id 2) both rest, then
a market buy of 8.00 (id 3) arrives.  The claim expects two trades (5.00 then
3.00) and the buy filled; instead the counterparty query matches both resting
sells and its `.one()` call raises `MultipleResultsFound`, so the third
`add_order` raises and emits no trade at all (and even with a single
counterparty the loop would stop after the first fill, since it runs only while
the aggressor's status is `OPEN`).  This refutes the claim as stated. -/
theorem C1_match_loop_walk_refuted :
    (add_order (engineStart [0]) (mkLimit 1 0 OrderSide.sell 10000 500 1)).isOk = true ∧
    (add_order (applyAdd (engineStart [0]) (mkLimit 1 0 OrderSide.sell 10000 500 1))
      (mkLimit 2 0 OrderSide.sell 10100 500 2)).isOk = true ∧
    add_order
      (applyAdd (applyAdd (engineStart [0]) (mkLimit 1 0 OrderSide.sell 10000 500 1))
        (mkLimit 2 0 OrderSide.sell 10100 500 2))
      (mkMarket 3 0 OrderSide.buy 800 3) =
      Except.error EngineError.multipleResultsFound := by
  refine ⟨by decide, by decide, by decide⟩

/-- C2: refuted on the code.  Resting buy limits 5.00@99.00 (id 1) and
5.00@101.00 (id 2); a limit sell 5.00@100.00 (id 3) arrives.  The best bid is
101.00 and the crossing check passes (101.00 ≥ 100.00), but the counterparty
query keeps `Order.price <= sell.price`, so the only row it returns is the
99.00 bid: the trade fills order id 1, not the highest bid, and the 101.00 bid
(id 2) is left resting open and untouched. -/
theorem C2_best_bid_selection_refuted :
    get_best_bid_price
      (runCmds (engineStart [0])
        [Cmd.add (mkLimit 1 0 OrderSide.buy 9900 500 1),
         Cmd.add (mkLimit 2 0 OrderSide.buy 10100 500 2)]).orders 0 = some 10100 ∧
    (runCmds (engineStart [0])
      [Cmd.add (mkLimit 1 0 OrderSide.buy 9900 500 1),
       Cmd.add (mkLimit 2 0 OrderSide.buy 10100 500 2),
       Cmd.add (mkLimit 3 0 OrderSide.sell 10000 500 3)]).trades =
      [{ contract_id := 0, buy_order_id := 1, sell_order_id := 3,
         price := 10100, quantity := 500 }] ∧
    (runCmds (engineStart [0])
      [Cmd.add (mkLimit 1 0 OrderSide.buy 9900 500 1),
       Cmd.add (mkLimit 2 0 OrderSide.buy 10100 500 2),
       Cmd.add (mkLimit 3 0 OrderSide.sell 10000 500 3)]).orders.find?
        (fun r => r.id == 2) =
      some { id := 2, contract_id := 0, side := OrderSide.buy,
             type := OrderType.limit, price := some 10100, quantity := 500,
             status := OrderStatus.opn, remaining_quantity := some 500,
             created_at := 2 } := by
  refine ⟨by decide, by decide, by decide⟩

/-- C3 counterexample: a market buy of 5.00 (id 1) on an empty book.  The claim
says its residual is cancelled (`status = cancelled`) and the order is not
placed on the book; the code instead rests it on the book with the sentinel
price 999.99, status still `OPEN` and the full remaining quantity. -/
theorem C3_market_residual_not_cancelled :
    add_order (engineStart [0]) (mkMarket 1 0 OrderSide.buy 500 1) =
      Except.ok ({ contracts := [0],
                   orders := [{ id := 1, contract_id := 0, side := OrderSide.buy,
                                type := OrderType.market, price := some 99999,
                                quantity := 500, status := OrderStatus.opn,
                                remaining_quantity := some 500, created_at := 1 }],
                   trades := [] }, []) ∧
    OrderStatus.opn ≠ OrderStatus.cancelled := by
  refine ⟨by decide, by decide⟩

/-- C4: refuted on the code.  Trace: buy limit 5.00@99.00 (id 1), buy limit
5.00@101.00 (id 2), then sell limit 8.00@100.00 (id 3).  The sell fills the
99.00 bid (the only row its query returns), is left partially filled with 3.00,
and rests at 100.00 because the loop exits once its status leaves `OPEN`.  After
`add_order` returns, best bid (101.00) ≥ best ask (100.00): the book is
crossed, refuting the no-cross invariant. -/
theorem C4_book_crossed_after_add_order :
    get_best_bid_price
      (runCmds (engineStart [0])
        [Cmd.add (mkLimit 1 0 OrderSide.buy 9900 500 1),
         Cmd.add (mkLimit 2 0 OrderSide.buy 10100 500 2),
         Cmd.add (mkLimit 3 0 OrderSide.sell 10000 800 3)]).orders 0 = some 10100 ∧
    get_best_ask_price
      (runCmds (engineStart [0])
        [Cmd.add (mkLimit 1 0 OrderSide.buy 9900 500 1),
         Cmd.add (mkLimit 2 0 OrderSide.buy 10100 500 2),
         Cmd.add (mkLimit 3 0 OrderSide.sell 10000 800 3)]).orders 0 = some 10000 ∧
    ¬((10100 : ℤ) < (10000 : ℤ)) := by
  refine ⟨by decide, by decide, by decide⟩

/-- C7: refuted on the code.  Same bid setup as C2 with a sell limit
5.00@100.00 (id 3): the emitted trade is priced at `best_bid_price` (101.00)
while the resting order it fills (id 1) has price 99.00 — the trade price does
not equal the price of the resting order it fills. -/
theorem C7_trade_price_not_resting_price :
    (runCmds (engineStart [0])
      [Cmd.add (mkLimit 1 0 OrderSide.buy 9900 500 1),
       Cmd.add (mkLimit 2 0 OrderSide.buy 10100 500 2),
       Cmd.add (mkLimit 3 0 OrderSide.sell 10000 500 3)]).trades =
      [{ contract_id := 0, buy_order_id := 1, sell_order_id := 3,
         price := 10100, quantity := 500 }] ∧
    (runCmds (engineStart [0])
      [Cmd.add (mkLimit 1 0 OrderSide.buy 9900 500 1),
       Cmd.add (mkLimit 2 0 OrderSide.buy 10100 500 2),
       Cmd.add (mkLimit 3 0 OrderSide.sell 10000 500 3)]).orders.find?
        (fun r => r.id == 1) =
      some { id := 1, contract_id := 0, side := OrderSide.buy,
             type := OrderType.limit, price := some 9900, quantity := 500,
             status := OrderStatus.filled, remaining_quantity := some 0,
             created_at := 1 } ∧
    (10100 : ℤ) ≠ (9900 : ℤ) := by
  refine ⟨by decide, by decide, by decide⟩

/-- C8: refuted on the code.  Two sells of 5.00 at the same price 100.00
(ids 1 then 2) both rest; a market buy of 7.00 (id 3) arrives.  FIFO would fill
id 1 first (as the repository's own `test_price_time_priority_matching`
expects); instead both same-price sells satisfy the counterparty query and
`.one()` raises `MultipleResultsFound`: no order is matched at all. -/
theorem C8_fifo_refuted :
    (add_order (engineStart [0]) (mkLimit 1 0 OrderSide.sell 10000 500 1)).isOk = true ∧
    (add_order (applyAdd (engineStart [0]) (mkLimit 1 0 OrderSide.sell 10000 500 1))
      (mkLimit 2 0 OrderSide.sell 10000 500 2)).isOk = true ∧
    add_order
      (applyAdd (applyAdd (engineStart [0]) (mkLimit 1 0 OrderSide.sell 10000 500 1))
        (mkLimit 2 0 OrderSide.sell 10000 500 2))
      (mkMarket 3 0 OrderSide.buy 700 3) =
      Except.error EngineError.multipleResultsFound := by
  refine ⟨by decide, by decide, by decide⟩

/-- C9 counterexample: a zero-quantity limit buy (price 100.00, id 1) on an
empty book.  The claim says `add_order` fails with *InvalidOrder* for every
order with non-positive quantity; the code accepts it and rests it open on the
book — quantity is never validated. -/
theorem C9_zero_quantity_accepted :
    add_order (engineStart [0]) (mkLimit 1 0 OrderSide.buy 10000 0 1) =
      Except.ok ({ contracts := [0],
                   orders := [{ id := 1, contract_id := 0, side := OrderSide.buy,
                                type := OrderType.limit, price := some 10000,
                                quantity := 0, status := OrderStatus.opn,
                                remaining_quantity := some 0, created_at := 1 }],
                   trades := [] }, []) := by
  decide

/-- C5 counterexample: rest a limit buy (id 1), cancel it, then cancel it
again.  The claim says the second cancel yields *NotFound*; the code finds the
stored (already cancelled) row, sets its status to `cancelled` once more and
returns it — idempotent success, not *NotFound*. -/
theorem C5_cancel_cancelled_succeeds :
    cancel_order
      (applyCancel
        (applyAdd (engineStart [0]) (mkLimit 1 0 OrderSide.buy 10000 1000 1)) 1) 1 =
      Except.ok
        ({ contracts := [0],
           orders := [{ id := 1, contract_id := 0, side := OrderSide.buy,
                        type := OrderType.limit, price := some 10000,
                        quantity := 1000, status := OrderStatus.cancelled,
                        remaining_quantity := some 1000, created_at := 1 }],
           trades := [] },
          some { id := 1, contract_id := 0, side := OrderSide.buy,
                 type := OrderType.limit, price := some 10000, quantity := 1000,
                 status := OrderStatus.cancelled, remaining_quantity := some 1000,
                 created_at := 1 }) ∧
    (some { id := 1, contract_id := 0, side := OrderSide.buy,
            type := OrderType.limit, price := some 10000, quantity := 1000,
            status := OrderStatus.cancelled, remaining_quantity := some 1000,
            created_at := 1 } ≠ (none : Option Order)) := by
  refine ⟨by decide, by decide⟩

/-- C10: conservation of filled quantity.  Starting the engine and running any
sequence of `add_order` / `cancel_order` calls whose submitted orders are fresh
(`remaining_quantity` unset or equal to `quantity`, as the schema produces
them), at every point between calls and for every contract, the sum over all
stored orders of `quantity - remaining_quantity` equals twice the sum of the
recorded trade quantities: each completed match-loop iteration decrements
aggressor and resting order by the same fill amount and emits exactly one trade
of that amount, and a raising call mutates nothing. -/
theorem C10_conservation (contracts : List Nat) (cmds : List Cmd)
    (hf : ∀ o, Cmd.add o ∈ cmds → freshOrder o) (c : Nat) :
    filledSum (runCmds (engineStart contracts) cmds).orders c =
      2 * tradeSum (runCmds (engineStart contracts) cmds).trades c :=
  (goodState_runCmds (engineStart contracts) cmds
    (goodState_engineStart contracts) hf).2 c

/-- C10 witness: a concrete trace — rest a buy of 10.00@100.00, cross it with a
sell of 4.00@100.00, cancel the partially filled buy — at which the conservation
theorem is instantiated. -/
theorem C10_conservation_witness :
    (∀ o, Cmd.add o ∈
        [Cmd.add (mkLimit 1 0 OrderSide.buy 10000 1000 1),
         Cmd.add (mkLimit 2 0 OrderSide.sell 10000 400 2),
         Cmd.cancel 1] → freshOrder o) ∧
    filledSum (runCmds (engineStart [0])
        [Cmd.add (mkLimit 1 0 OrderSide.buy 10000 1000 1),
         Cmd.add (mkLimit 2 0 OrderSide.sell 10000 400 2),
         Cmd.cancel 1]).orders 0 =
      2 * tradeSum (runCmds (engineStart [0])
        [Cmd.add (mkLimit 1 0 OrderSide.buy 10000 1000 1),
         Cmd.add (mkLimit 2 0 OrderSide.sell 10000 400 2),
         Cmd.cancel 1]).trades 0 := by
  have hf : ∀ o, Cmd.add o ∈
      [Cmd.add (mkLimit 1 0 OrderSide.buy 10000 1000 1),
       Cmd.add (mkLimit 2 0 OrderSide.sell 10000 400 2),
       Cmd.cancel 1] → freshOrder o := by
    intro o ho
    rw [List.mem_cons, List.mem_cons, List.mem_cons] at ho
    rcases ho with h | h | h | h
    · injection h with h'
      rw [h']
      exact Or.inl rfl
    · injection h with h'
      rw [h']
      exact Or.inl rfl
    · exact Cmd.noConfusion h
    · exact absurd h (List.not_mem_nil _)
  exact ⟨hf, C10_conservation [0] _ hf 0⟩

/-- C5 amended: `cancel_order` returns the order with status set to `cancelled`
for any id whose row is found in the store, whatever its current status
(so cancelling an already-cancelled or filled order succeeds again); the row is
updated in place, not removed.  `NotFound` (`none`) arises only when no stored
row has the id. -/
theorem C5_amended_cancel_semantics (st : EngineState) (i : Nat) :
    (st.orders.find? (fun r => r.id == i) = none →
      cancel_order st i = Except.ok (st, none)) ∧
    (∀ o : Order, ∀ p : ℤ, st.orders.find? (fun r => r.id == i) = some o →
      o.price = some p →
      cancel_order st i =
        Except.ok
          ({ st with orders :=
              update_order st.orders { o with status := OrderStatus.cancelled } },
            some { o with status := OrderStatus.cancelled })) := by
  constructor
  · intro hfind
    unfold cancel_order
    rw [hfind]
  · intro o p hfind hp
    unfold cancel_order
    rw [hfind]
    dsimp only
    rw [hp]

/-- C5 witness: the amended cancel semantics instantiated at the concrete
already-cancelled book of the counterexample. -/
theorem C5_amended_cancel_witness :
    ((applyCancel
        (applyAdd (engineStart [0]) (mkLimit 1 0 OrderSide.buy 10000 1000 1))
        1).orders.find? (fun r => r.id == 1) =
      some { id := 1, contract_id := 0, side := OrderSide.buy,
             type := OrderType.limit, price := some 10000, quantity := 1000,
             status := OrderStatus.cancelled, remaining_quantity := some 1000,
             created_at := 1 }) ∧
    cancel_order
      (applyCancel
        (applyAdd (engineStart [0]) (mkLimit 1 0 OrderSide.buy 10000 1000 1)) 1) 1 =
      Except.ok
        ({ contracts := [0],
           orders := [{ id := 1, contract_id := 0, side := OrderSide.buy,
                        type := OrderType.limit, price := some 10000,
                        quantity := 1000, status := OrderStatus.cancelled,
                        remaining_quantity := some 1000, created_at := 1 }],
           trades := [] },
          some { id := 1, contract_id := 0, side := OrderSide.buy,
                 type := OrderType.limit, price := some 10000, quantity := 1000,
                 status := OrderStatus.cancelled, remaining_quantity := some 1000,
                 created_at := 1 }) :=
  ⟨by decide,
    (C5_amended_cancel_semantics
      (applyCancel
        (applyAdd (engineStart [0]) (mkLimit 1 0 OrderSide.buy 10000 1000 1)) 1) 1).2
      { id := 1, contract_id := 0, side := OrderSide.buy,
        type := OrderType.limit, price := some 10000, quantity := 1000,
        status := OrderStatus.cancelled, remaining_quantity := some 1000,
        created_at := 1 } 10000 (by decide) rfl⟩

/-- C3 amended: a market order's residual is never cancelled.  Whenever
`add_order` succeeds on a market order (whose incoming status is not already
`cancelled`), the order is rested on the book: the store gains a row with the
order's id, carrying the sentinel price (999.99 for a buy, 0.00 for a sell)
that `OrderBook.add_order` assigns, and its status — left `open`,
`partially_filled` or `filled` by the match loop — is never `cancelled`. -/
theorem C3_amended_market_rests (st : EngineState) (o : Order) (st' : EngineState)
    (ts : List Trade) (hm : o.type = OrderType.market)
    (hs : o.status ≠ OrderStatus.cancelled)
    (h : add_order st o = Except.ok (st', ts)) :
    ∃ os1 row, st'.orders = os1 ++ [row] ∧ row.id = o.id ∧
      row.price = some (sentinelPrice o.side) ∧
      row.status ≠ OrderStatus.cancelled := by
  rw [add_order_eq] at h
  by_cases hc : st.contracts.contains (initRemaining o).contract_id = true
  case neg =>
    rw [if_neg hc] at h
    exact Except.noConfusion h
  rw [if_pos hc] at h
  by_cases hside : (initRemaining o).side = OrderSide.buy
  · rw [if_pos hside] at h
    rcases match_buy_order_cases (initRemaining o) st.orders with
      ⟨e, hmm⟩ | hmm | ⟨r, a, hask, hel, hmm⟩
    · rw [hmm] at h
      exact Except.noConfusion h
    · rw [hmm] at h
      dsimp only at h
      cases hb : book_add_order st.orders (initRemaining o) with
      | error e =>
        rw [hb] at h
        exact Except.noConfusion h
      | ok os2 =>
        rw [hb] at h
        dsimp only at h
        injection h with h1
        rw [Prod.mk.injEq] at h1
        rcases book_add_order_ok _ _ _ hb with
          ⟨row, hrow, hrid, _, _, _, hrs2, hrp2, _⟩
        refine ⟨st.orders, row, ?_, ?_, ?_, ?_⟩
        · rw [← h1.1]
          exact hrow
        · rw [hrid, initRemaining_id]
        · rw [hrp2, initRemaining_type, if_pos hm, initRemaining_side]
        · rw [hrs2, initRemaining_status]
          exact hs
    · rw [hmm] at h
      dsimp only at h
      cases hb : book_add_order
          (update_order st.orders (fillResult r (min (rq (initRemaining o)) (rq r))))
          (fillResult (initRemaining o) (min (rq (initRemaining o)) (rq r))) with
      | error e =>
        rw [hb] at h
        exact Except.noConfusion h
      | ok os2 =>
        rw [hb] at h
        dsimp only at h
        injection h with h1
        rw [Prod.mk.injEq] at h1
        rcases book_add_order_ok _ _ _ hb with
          ⟨row, hrow, hrid, _, _, _, hrs2, hrp2, _⟩
        refine ⟨update_order st.orders
          (fillResult r (min (rq (initRemaining o)) (rq r))), row, ?_, ?_, ?_, ?_⟩
        · rw [← h1.1]
          exact hrow
        · rw [hrid, fillResult_id, initRemaining_id]
        · rw [hrp2, fillResult_type, initRemaining_type, if_pos hm, fillResult_side,
            initRemaining_side]
        · rw [hrs2]
          exact fillResult_status_ne_cancelled _ _
  · rw [if_neg hside] at h
    rcases match_sell_order_cases (initRemaining o) st.orders with
      ⟨e, hmm⟩ | hmm | ⟨r, a, hask, hel, hmm⟩
    · rw [hmm] at h
      exact Except.noConfusion h
    · rw [hmm] at h
      dsimp only at h
      cases hb : book_add_order st.orders (initRemaining o) with
      | error e =>
        rw [hb] at h
        exact Except.noConfusion h
      | ok os2 =>
        rw [hb] at h
        dsimp only at h
        injection h with h1
        rw [Prod.mk.injEq] at h1
        rcases book_add_order_ok _ _ _ hb with
          ⟨row, hrow, hrid, _, _, _, hrs2, hrp2, _⟩
        refine ⟨st.orders, row, ?_, ?_, ?_, ?_⟩
        · rw [← h1.1]
          exact hrow
        · rw [hrid, initRemaining_id]
        · rw [hrp2, initRemaining_type, if_pos hm, initRemaining_side]
        · rw [hrs2, initRemaining_status]
          exact hs
    · rw [hmm] at h
      dsimp only at h
      cases hb : book_add_order
          (update_order st.orders (fillResult r (min (rq (initRemaining o)) (rq r))))
          (fillResult (initRemaining o) (min (rq (initRemaining o)) (rq r))) with
      | error e =>
        rw [hb] at h
        exact Except.noConfusion h
      | ok os2 =>
        rw [hb] at h
        dsimp only at h
        injection h with h1
        rw [Prod.mk.injEq] at h1
        rcases book_add_order_ok _ _ _ hb with
          ⟨row, hrow, hrid, _, _, _, hrs2, hrp2, _⟩
        refine ⟨update_order st.orders
          (fillResult r (min (rq (initRemaining o)) (rq r))), row, ?_, ?_, ?_, ?_⟩
        · rw [← h1.1]
          exact hrow
        · rw [hrid, fillResult_id, initRemaining_id]
        · rw [hrp2, fillResult_type, initRemaining_type, if_pos hm, fillResult_side,
            initRemaining_side]
        · rw [hrs2]
          exact fillResult_status_ne_cancelled _ _

/-- C3 witness: the amended market-rests theorem instantiated on a market buy of
5.00 against the empty book. -/
theorem C3_amended_witness :
    (mkMarket 1 0 OrderSide.buy 500 1).type = OrderType.market ∧
    (mkMarket 1 0 OrderSide.buy 500 1).status ≠ OrderStatus.cancelled ∧
    ∃ os1 row,
      ({ contracts := [0],
         orders := [{ id := 1, contract_id := 0, side := OrderSide.buy,
                      type := OrderType.market, price := some 99999,
                      quantity := 500, status := OrderStatus.opn,
                      remaining_quantity := some 500, created_at := 1 }],
         trades := [] } : EngineState).orders = os1 ++ [row] ∧
      row.id = 1 ∧ row.price = some (sentinelPrice OrderSide.buy) ∧
      row.status ≠ OrderStatus.cancelled :=
  ⟨rfl, by decide,
    C3_amended_market_rests (engineStart [0]) (mkMarket 1 0 OrderSide.buy 500 1)
      { contracts := [0],
        orders := [{ id := 1, contract_id := 0, side := OrderSide.buy,
                     type := OrderType.market, price := some 99999,
                     quantity := 500, status := OrderStatus.opn,
                     remaining_quantity := some 500, created_at := 1 }],
        trades := [] } [] rfl (by decide) (by decide)⟩

/-- C6: the counterparty query of every match-loop iteration goes through
`.one()`, which demands exactly one row.  For any aggressor that enters the
loop (open status, known contract, an opposing best price exists and the
limit-price break does not fire), if the number of stored open or partially
filled counterparties satisfying the query's price predicate is zero, or is
two or more, `add_order` raises (`NoResultFound` / `MultipleResultsFound`)
instead of producing a trade. -/
theorem C6_query_requires_exactly_one_row (st : EngineState) (o : Order) (a : ℤ)
    (hc : st.contracts.contains o.contract_id = true)
    (hs : o.status = OrderStatus.opn)
    (hb : oppBest st o = some a)
    (hx : o.type = OrderType.market ∨
      ∃ p, o.price = some p ∧
        (if o.side = OrderSide.buy then a ≤ p else p ≤ a)) :
    (counterpartyRows st o = [] →
      add_order st o = Except.error EngineError.noResultFound) ∧
    (2 ≤ (counterpartyRows st o).length →
      add_order st o = Except.error EngineError.multipleResultsFound) := by
  by_cases hside : o.side = OrderSide.buy
  · have hb' : get_best_ask_price st.orders o.contract_id = some a := by
      unfold oppBest at hb
      rw [if_pos hside] at hb
      exact hb
    have hbrk : limitBuyBreak a (initRemaining o) = Except.ok false := by
      unfold limitBuyBreak
      rw [initRemaining_type, initRemaining_price]
      by_cases ht : o.type = OrderType.limit
      · rw [if_pos ht]
        rcases hx with hmkt | ⟨p, hp, hle⟩
        · rw [hmkt] at ht
          exact OrderType.noConfusion ht
        · rw [hp]
          dsimp only
          rw [if_pos hside] at hle
          rw [decide_eq_false (not_lt.mpr hle)]
      · rw [if_neg ht]
    have hkey : ∀ rows, eligibleSellOrders st.orders o = rows →
        match_buy_order (initRemaining o) st.orders =
          (match rows with
           | [] => Except.error EngineError.noResultFound
           | [nextSell] =>
             matchBuyGo 1 (fillResult (initRemaining o)
                 (min (rq (initRemaining o)) (rq nextSell)))
               (update_order st.orders (fillResult nextSell
                 (min (rq (initRemaining o)) (rq nextSell))))
               [mkTradeBuy (initRemaining o) nextSell a
                 (min (rq (initRemaining o)) (rq nextSell))]
           | _ :: _ :: _ => Except.error EngineError.multipleResultsFound) := by
      intro rows hrows
      unfold match_buy_order matchBuyGo
      rw [if_pos (by rw [initRemaining_status]; exact hs)]
      split
      next heq =>
        rw [initRemaining_contract, hb'] at heq
        exact Option.noConfusion heq
      next a2 heq =>
        rw [initRemaining_contract, hb'] at heq
        injection heq with heq2
        rw [← heq2, hbrk]
        dsimp only
        unfold matchBuyStep
        rw [eligibleSell_initRemaining, hrows]
        cases rows with
        | nil => rfl
        | cons x tl =>
          cases tl with
          | nil => rfl
          | cons y tl2 => rfl
    constructor
    · intro hrows
      unfold counterpartyRows at hrows
      rw [if_pos hside] at hrows
      rw [add_order_eq, if_pos (by rw [initRemaining_contract]; exact hc),
        if_pos (by rw [initRemaining_side]; exact hside),
        hkey (eligibleSellOrders st.orders o) rfl, hrows]
    · intro hlen
      unfold counterpartyRows at hlen
      rw [if_pos hside] at hlen
      rw [add_order_eq, if_pos (by rw [initRemaining_contract]; exact hc),
        if_pos (by rw [initRemaining_side]; exact hside),
        hkey (eligibleSellOrders st.orders o) rfl]
      cases hrows0 : eligibleSellOrders st.orders o with
      | nil =>
        rw [hrows0] at hlen
        simp at hlen
      | cons x tl =>
        cases tl with
        | nil =>
          rw [hrows0] at hlen
          simp at hlen
        | cons y tl2 => rfl
  · have hb' : get_best_bid_price st.orders o.contract_id = some a := by
      unfold oppBest at hb
      rw [if_neg hside] at hb
      exact hb
    have hbrk : limitSellBreak a (initRemaining o) = Except.ok false := by
      unfold limitSellBreak
      rw [initRemaining_type, initRemaining_price]
      by_cases ht : o.type = OrderType.limit
      · rw [if_pos ht]
        rcases hx with hmkt | ⟨p, hp, hle⟩
        · rw [hmkt] at ht
          exact OrderType.noConfusion ht
        · rw [hp]
          dsimp only
          rw [if_neg hside] at hle
          rw [decide_eq_false (not_lt.mpr hle)]
      · rw [if_neg ht]
    have hkey : ∀ rows, eligibleBuyOrders st.orders o = rows →
        match_sell_order (initRemaining o) st.orders =
          (match rows with
           | [] => Except.error EngineError.noResultFound
           | [nextBuy] =>
             matchSellGo 1 (fillResult (initRemaining o)
                 (min (rq (initRemaining o)) (rq nextBuy)))
               (update_order st.orders (fillResult nextBuy
                 (min (rq (initRemaining o)) (rq nextBuy))))
               [mkTradeSell (initRemaining o) nextBuy a
                 (min (rq (initRemaining o)) (rq nextBuy))]
           | _ :: _ :: _ => Except.error EngineError.multipleResultsFound) := by
      intro rows hrows
      unfold match_sell_order matchSellGo
      rw [if_pos (by rw [initRemaining_status]; exact hs)]
      split
      next heq =>
        rw [initRemaining_contract, hb'] at heq
        exact Option.noConfusion heq
      next a2 heq =>
        rw [initRemaining_contract, hb'] at heq
        injection heq with heq2
        rw [← heq2, hbrk]
        dsimp only
        unfold matchSellStep
        rw [eligibleBuy_initRemaining, hrows]
        cases rows with
        | nil => rfl
        | cons x tl =>
          cases tl with
          | nil => rfl
          | cons y tl2 => rfl
    constructor
    · intro hrows
      unfold counterpartyRows at hrows
      rw [if_neg hside] at hrows
      rw [add_order_eq, if_pos (by rw [initRemaining_contract]; exact hc),
        if_neg (by rw [initRemaining_side]; exact hside),
        hkey (eligibleBuyOrders st.orders o) rfl, hrows]
    · intro hlen
      unfold counterpartyRows at hlen
      rw [if_neg hside] at hlen
      rw [add_order_eq, if_pos (by rw [initRemaining_contract]; exact hc),
        if_neg (by rw [initRemaining_side]; exact hside),
        hkey (eligibleBuyOrders st.orders o) rfl]
      cases hrows0 : eligibleBuyOrders st.orders o with
      | nil =>
        rw [hrows0] at hlen
        simp at hlen
      | cons x tl =>
        cases tl with
        | nil =>
          rw [hrows0] at hlen
          simp at hlen
        | cons y tl2 => rfl

/-- C6 witness: the exactly-one-row theorem instantiated at a book with two
resting sells (5.00@100.00 and 5.00@101.00) and a crossing market buy of 8.00:
both rows satisfy the query, so `add_order` raises `MultipleResultsFound`. -/
theorem C6_query_witness :
    (({ contracts := [0],
        orders := [{ id := 1, contract_id := 0, side := OrderSide.sell,
                     type := OrderType.limit, price := some 10000, quantity := 500,
                     status := OrderStatus.opn, remaining_quantity := some 500,
                     created_at := 1 },
                   { id := 2, contract_id := 0, side := OrderSide.sell,
                     type := OrderType.limit, price := some 10100, quantity := 500,
                     status := OrderStatus.opn, remaining_quantity := some 500,
                     created_at := 2 }],
        trades := [] } : EngineState).contracts.contains
      (mkMarket 3 0 OrderSide.buy 800 3).contract_id = true) ∧
    (mkMarket 3 0 OrderSide.buy 800 3).status = OrderStatus.opn ∧
    oppBest
      { contracts := [0],
        orders := [{ id := 1, contract_id := 0, side := OrderSide.sell,
                     type := OrderType.limit, price := some 10000, quantity := 500,
                     status := OrderStatus.opn, remaining_quantity := some 500,
                     created_at := 1 },
                   { id := 2, contract_id := 0, side := OrderSide.sell,
                     type := OrderType.limit, price := some 10100, quantity := 500,
                     status := OrderStatus.opn, remaining_quantity := some 500,
                     created_at := 2 }],
        trades := [] } (mkMarket 3 0 OrderSide.buy 800 3) = some 10000 ∧
    2 ≤ (counterpartyRows
      { contracts := [0],
        orders := [{ id := 1, contract_id := 0, side := OrderSide.sell,
                     type := OrderType.limit, price := some 10000, quantity := 500,
                     status := OrderStatus.opn, remaining_quantity := some 500,
                     created_at := 1 },
                   { id := 2, contract_id := 0, side := OrderSide.sell,
                     type := OrderType.limit, price := some 10100, quantity := 500,
                     status := OrderStatus.opn, remaining_quantity := some 500,
                     created_at := 2 }],
        trades := [] } (mkMarket 3 0 OrderSide.buy 800 3)).length ∧
    add_order
      { contracts := [0],
        orders := [{ id := 1, contract_id := 0, side := OrderSide.sell,
                     type := OrderType.limit, price := some 10000, quantity := 500,
                     status := OrderStatus.opn, remaining_quantity := some 500,
                     created_at := 1 },
                   { id := 2, contract_id := 0, side := OrderSide.sell,
                     type := OrderType.limit, price := some 10100, quantity := 500,
                     status := OrderStatus.opn, remaining_quantity := some 500,
                     created_at := 2 }],
        trades := [] } (mkMarket 3 0 OrderSide.buy 800 3) =
      Except.error EngineError.multipleResultsFound :=
  ⟨by decide, rfl, by decide, by decide,
    (C6_query_requires_exactly_one_row
      { contracts := [0],
        orders := [{ id := 1, contract_id := 0, side := OrderSide.sell,
                     type := OrderType.limit, price := some 10000, quantity := 500,
                     status := OrderStatus.opn, remaining_quantity := some 500,
                     created_at := 1 },
                   { id := 2, contract_id := 0, side := OrderSide.sell,
                     type := OrderType.limit, price := some 10100, quantity := 500,
                     status := OrderStatus.opn, remaining_quantity := some 500,
                     created_at := 2 }],
        trades := [] } (mkMarket 3 0 OrderSide.buy 800 3) 10000
      (by decide) rfl (by decide) (Or.inl rfl)).2 (by decide)⟩

theorem match_break_when_no_opposing (st : EngineState) (o : Order)
    (hb : oppBest st o = none) :
    (if (initRemaining o).side = OrderSide.buy
      then match_buy_order (initRemaining o) st.orders
      else match_sell_order (initRemaining o) st.orders) =
      Except.ok (initRemaining o, st.orders, []) := by
  by_cases hside : o.side = OrderSide.buy
  · rw [if_pos (by rw [initRemaining_side]; exact hside)]
    have hb' : get_best_ask_price st.orders o.contract_id = none := by
      unfold oppBest at hb
      rw [if_pos hside] at hb
      exact hb
    by_cases hstat : o.status = OrderStatus.opn
    · unfold match_buy_order matchBuyGo
      rw [if_pos (by rw [initRemaining_status]; exact hstat)]
      split
      next heq => rfl
      next a2 heq =>
        rw [initRemaining_contract, hb'] at heq
        exact Option.noConfusion heq
    · exact matchBuyGo_of_ne_opn 2 _ _ _ (by rw [initRemaining_status]; exact hstat)
  · rw [if_neg (by rw [initRemaining_side]; exact hside)]
    have hb' : get_best_bid_price st.orders o.contract_id = none := by
      unfold oppBest at hb
      rw [if_neg hside] at hb
      exact hb
    by_cases hstat : o.status = OrderStatus.opn
    · unfold match_sell_order matchSellGo
      rw [if_pos (by rw [initRemaining_status]; exact hstat)]
      split
      next heq => rfl
      next a2 heq =>
        rw [initRemaining_contract, hb'] at heq
        exact Option.noConfusion heq
    · exact matchSellGo_of_ne_opn 2 _ _ _ (by rw [initRemaining_status]; exact hstat)

/-- C9 amended: `add_order`'s only entry validation is the missing-price check
of `OrderBook.add_order`, applied after the match attempt.  With no opposing
best price present, a limit order without a price makes `add_order` raise
`ValueError` ("Order must have a price"); an order with non-positive quantity
is not rejected: it is accepted, runs the match loop and rests on the book as
usual. -/
theorem C9_amended_entry_validation (st : EngineState) (o : Order) :
    (o.type = OrderType.limit → o.price = none →
      st.contracts.contains o.contract_id = true →
      oppBest st o = none →
      add_order st o = Except.error EngineError.missingPrice) ∧
    (∀ p : ℤ, o.type = OrderType.limit → o.price = some p → o.quantity ≤ 0 →
      o.remaining_quantity = none →
      st.contracts.contains o.contract_id = true →
      oppBest st o = none →
      st.orders.any (fun r => r.id == o.id) = false →
      add_order st o =
        Except.ok ({ st with orders :=
          st.orders ++ [{ o with remaining_quantity := some o.quantity }] }, [])) := by
  constructor
  · intro ht hp hc hb
    rw [add_order_eq, if_pos (by rw [initRemaining_contract]; exact hc),
      match_break_when_no_opposing st o hb]
    dsimp only
    have hbook : book_add_order st.orders (initRemaining o) =
        Except.error EngineError.missingPrice := by
      unfold book_add_order
      have hnm : ¬((initRemaining o).type = OrderType.market) := by
        rw [initRemaining_type, ht]
        exact fun h => OrderType.noConfusion h
      rw [if_neg hnm]
      have hpn : (initRemaining o).price = none := by
        rw [initRemaining_price, hp]
      rw [if_pos hpn]
    rw [hbook]
  · intro p ht hp hq hrem hc hb hany
    rw [add_order_eq, if_pos (by rw [initRemaining_contract]; exact hc),
      match_break_when_no_opposing st o hb]
    dsimp only
    have hinit : initRemaining o = { o with remaining_quantity := some o.quantity } := by
      unfold initRemaining
      rw [hrem]
    have hbook : book_add_order st.orders (initRemaining o) =
        Except.ok (st.orders ++ [initRemaining o]) := by
      unfold book_add_order
      have hnm : ¬((initRemaining o).type = OrderType.market) := by
        rw [initRemaining_type, ht]
        exact fun h => OrderType.noConfusion h
      rw [if_neg hnm]
      have hpn : ¬((initRemaining o).price = none) := by
        rw [initRemaining_price, hp]
        exact fun h => Option.noConfusion h
      rw [if_neg hpn]
      unfold insertEntity
      have hany' : (st.orders.any fun r => r.id == (initRemaining o).id) = false := by
        simp only [initRemaining_id]
        exact hany
      have hcond : ¬((st.orders.any fun r => r.id == (initRemaining o).id) = true) := by
        rw [hany']
        exact Bool.false_ne_true
      rw [if_neg hcond]
    rw [hbook]
    dsimp only
    rw [hinit, List.append_nil]

/-- C9 witness: both parts of the amended validation theorem instantiated — a
limit buy with no price on the empty book raises the missing-price error, and a
zero-quantity limit buy at 100.00 is accepted and rested. -/
theorem C9_amended_witness :
    add_order (engineStart [0])
      { id := 1, contract_id := 0, side := OrderSide.buy,
        type := OrderType.limit, price := none, quantity := 500,
        status := OrderStatus.opn, remaining_quantity := none,
        created_at := 1 } = Except.error EngineError.missingPrice ∧
    (mkLimit 1 0 OrderSide.buy 10000 0 1).quantity ≤ 0 ∧
    add_order (engineStart [0]) (mkLimit 1 0 OrderSide.buy 10000 0 1) =
      Except.ok ({ contracts := [0],
                   orders := [{ id := 1, contract_id := 0, side := OrderSide.buy,
                                type := OrderType.limit, price := some 10000,
                                quantity := 0, status := OrderStatus.opn,
                                remaining_quantity := some 0, created_at := 1 }],
                   trades := [] }, []) :=
  ⟨(C9_amended_entry_validation (engineStart [0])
      { id := 1, contract_id := 0, side := OrderSide.buy,
        type := OrderType.limit, price := none, quantity := 500,
        status := OrderStatus.opn, remaining_quantity := none,
        created_at := 1 }).1 rfl rfl (by decide) (by decide),
    by decide,
    (C9_amended_entry_validation (engineStart [0])
      (mkLimit 1 0 OrderSide.buy 10000 0 1)).2 10000 rfl rfl (by decide) rfl
      (by decide) (by decide) (by decide)⟩
